import Mathlib

/-!
Shallow embedding of the surreal repository's PPO components: the `DiagGauss`
action distribution and `PPOModel` (src/surreal/model/ppo_net.py), the
`TorchBroadcaster` parameter publisher
(src/surreal/distributed/ps/torch_broadcaster.py) and the evaluation rollout
loop (src/surreal/main/run_cartpole_eval.py).  Tensors are embedded as
(nested) lists of real numbers with the batch dimension outermost.
-/

namespace SurrealRL

noncomputable section

namespace DiagGauss

/-- One batch row of `DiagGauss.loglikelihood` (ppo_net.py lines 27-38):
`-0.5 * (((a - mean0) / std0)^2).sum() - 0.5*log(2*pi)*d - std0.log().sum()`
where `mean0 = prob[:, :d]` and `std0 = prob[:, d:]`. -/
def loglikelihoodRow (d : ℕ) (a row : List ℝ) : ℝ :=
  -0.5 * (List.zipWith (fun x p => ((x - p.1) / p.2) ^ 2)
      a ((row.take d).zip (row.drop d))).sum
    - 0.5 * Real.log (2 * Real.pi) * d
    - ((row.drop d).map Real.log).sum

/-- `DiagGauss.loglikelihood` on a 2-D action batch and probability record,
one scalar per batch row (the code keeps shape `(batch, 1)`). -/
def loglikelihood (d : ℕ) (a prob : List (List ℝ)) : List ℝ :=
  List.zipWith (loglikelihoodRow d) a prob

/-- `torch.clamp(x, min=c)`: elementwise lower clamp. -/
def clampMin (c x : ℝ) : ℝ := if x < c then c else x

/-- `DiagGauss.likelihood` (ppo_net.py lines 40-44):
`torch.clamp(self.loglikelihood(a, prob).exp(), min=1e-5)`. -/
def likelihood (d : ℕ) (a prob : List (List ℝ)) : List ℝ :=
  (loglikelihood d a prob).map fun x => clampMin (1e-5) (Real.exp x)

/-- One batch row of `DiagGauss.kl` (ppo_net.py lines 46-60):
`((std1/std0).log()).sum() + ((std0^2 + (mean0-mean1)^2)/(2*std1^2)).sum()
 - 0.5*d`. -/
def klRow (d : ℕ) (row0 row1 : List ℝ) : ℝ :=
  (List.zipWith (fun s0 s1 => Real.log (s1 / s0)) (row0.drop d) (row1.drop d)).sum
    + (List.zipWith (fun q s1 => q / (2 * s1 ^ 2))
        (List.zipWith (fun s0 md => s0 ^ 2 + md ^ 2) (row0.drop d)
          (List.zipWith (fun m0 m1 => m0 - m1) (row0.take d) (row1.take d)))
        (row1.drop d)).sum
    - 0.5 * d

/-- `DiagGauss.kl` on 2-D probability records, one scalar per batch row. -/
def kl (d : ℕ) (prob0 prob1 : List (List ℝ)) : List ℝ :=
  List.zipWith (klRow d) prob0 prob1

/-- One batch row of `DiagGauss.entropy` (ppo_net.py lines 62-70), exactly as
the code computes it: `0.5 * std_nd.log().sum() + 0.5*log(2*pi*e)*d` with
`std_nd = prob[:, d:]`. -/
def entropyRow (d : ℕ) (row : List ℝ) : ℝ :=
  0.5 * ((row.drop d).map Real.log).sum
    + 0.5 * Real.log (2 * Real.pi * Real.exp 1) * d

/-- `DiagGauss.entropy` on a 2-D probability record. -/
def entropy (d : ℕ) (prob : List (List ℝ)) : List ℝ :=
  prob.map (entropyRow d)

/-- Follows the spec's words (for comparison with the source's `entropy`):
closed-form differential entropy of the independent Gaussian,
`0.5*log(std^2) + 0.5*log(2*pi*e)` summed over the `d` dims, i.e.
`sum(log std) + d * 0.5*log(2*pi*e)` per batch row. -/
def entropySpec (d : ℕ) (prob : List (List ℝ)) : List ℝ :=
  prob.map fun row =>
    ((row.drop d).map Real.log).sum + 0.5 * Real.log (2 * Real.pi * Real.exp 1) * d

/-- `DiagGauss.maxprob` on a 2-D probability record (ppo_net.py lines 83-89):
returns `prob[:, :d]`. -/
def maxprob (d : ℕ) (prob : List (List ℝ)) : List (List ℝ) :=
  prob.map fun row => row.take d

/-- `DiagGauss.maxprob` on a 3-D probability record, exactly as the code
computes it: `prob[:, :, d]`, the single entry at index `d` of each
innermost vector (one scalar per (batch, time) pair). -/
def maxprob3 (d : ℕ) (prob : List (List (List ℝ))) : List (List ℝ) :=
  prob.map fun mat => mat.map fun row => row.getD d 0

end DiagGauss

/-- The `rnn_config` record consumed by `PPOModel.__init__`. -/
structure RnnConfig where
  if_rnn_policy : Bool
  rnn_hidden : ℕ
  rnn_layer : ℕ

/-- Running observation statistics kept by the z-filter
(surreal/model/z_filter.py, not present under src/). -/
structure ZFilterState where
  count : ℕ
  mean : List ℝ
  var : List ℝ

/-- Values of column `i` across an observation batch. -/
def colVals (obs : List (List ℝ)) (i : ℕ) : List ℝ :=
  obs.map fun r => r.getD i 0

/-- Modelled from the spec: `ZFilter.z_update` (z_filter.py is not under
src/); the spec says it "updates running mean/variance" statistics from an
observation batch, so one update folds the batch into the running first and
second column moments and advances the sample count. -/
def zFilterUpdate (s : ZFilterState) (obs : List (List ℝ)) : ZFilterState :=
  { count := s.count + obs.length
    mean := (List.range s.mean.length).map fun i =>
      ((s.count : ℝ) * s.mean.getD i 0 + (colVals obs i).sum)
        / ((s.count : ℝ) + obs.length)
    var := (List.range s.var.length).map fun i =>
      ((s.count : ℝ) * s.var.getD i 0 + ((colVals obs i).map fun x => x ^ 2).sum)
        / ((s.count : ℝ) + obs.length) }

/-- Modelled from the spec: `ZFilter.forward` (z_filter.py is not under
src/); the spec calls the z-filter a "running-statistics normalizer applied
to raw observations", so each observation column is centred by the running
mean and scaled by the square root of the running variance. -/
def zFilterForward (s : ZFilterState) (obs : List (List ℝ)) : List (List ℝ) :=
  obs.map fun row =>
    List.zipWith (fun p v => (p.1 - p.2) / Real.sqrt v) (row.zip s.mean) s.var

/-- `PPOModel` state (ppo_net.py lines 92-142): construction-time
configuration plus the mutable parameter blobs.  The actor network, critic
network and recurrent stem come from model_builders.py, which is not under
src/, so their parameters are opaque blobs and their evaluation is
abstracted as a function argument of the forward passes. -/
structure PPOModel where
  obs_dim : ℕ
  action_dim : ℕ
  use_z_filter : Bool
  init_log_sig : ℝ
  rnn_config : RnnConfig
  actor : List ℝ
  critic : List ℝ
  z_filter : ZFilterState

/-- `PPOModel.update_target_params` (ppo_net.py lines 143-152): loads the
actor and critic state dicts from `net`, and the z-filter state dict as well
when `self.use_z_filter` is set. -/
def update_target_params (m net : PPOModel) : PPOModel :=
  { m with
    actor := net.actor
    critic := net.critic
    z_filter := if m.use_z_filter then net.z_filter else m.z_filter }

/-- `PPOModel.update_target_z_filter` (ppo_net.py lines 154-161): loads the
z-filter state dict from `net` only when `self.use_z_filter` is set;
otherwise the body is skipped and the call returns with nothing changed. -/
def update_target_z_filter (m net : PPOModel) : PPOModel :=
  if m.use_z_filter then { m with z_filter := net.z_filter } else m

/-- `PPOModel.forward_actor`: optionally normalizes the observations through
the z-filter, then evaluates the actor head.  Modelled from the spec where
the source is missing: `PPO_ActorNetwork` (model_builders.py is not under
src/) is abstracted as an evaluation function `evalA` of the actor
parameter blob (which, per the spec's round-trip property, comprises
everything the actor forward pass uses, the shared recurrent stem
included) applied to the filtered observations. -/
def forward_actor (evalA : List ℝ → List (List ℝ) → List (List ℝ))
    (m : PPOModel) (obs : List (List ℝ)) : List (List ℝ) :=
  evalA m.actor (if m.use_z_filter then zFilterForward m.z_filter obs else obs)

/-- `PPOModel.forward_critic`: symmetric to `forward_actor`, with the critic
head abstracted as `evalC` (model_builders.py is not under src/). -/
def forward_critic (evalC : List ℝ → List (List ℝ) → List (List ℝ))
    (m : PPOModel) (obs : List (List ℝ)) : List (List ℝ) :=
  evalC m.critic (if m.use_z_filter then zFilterForward m.z_filter obs else obs)

/-- The message of the `ValueError` raised by `PPOModel.z_update`. -/
def zUpdateErrMsg : String := "Z_update called when network is set to not use z_filter"

/-- `PPOModel.z_update` (ppo_net.py lines 238-246): updates the z-filter
running statistics when `use_z_filter` is set, otherwise raises
`ValueError`.  The result pairs the raised-or-returned outcome with the
model state after the call. -/
def z_update (m : PPOModel) (obs : List (List ℝ)) :
    Except String Unit × PPOModel :=
  if m.use_z_filter then
    (Except.ok (), { m with z_filter := zFilterUpdate m.z_filter obs })
  else
    (Except.error zUpdateErrMsg, m)

/-- Argument of `TorchBroadcaster.broadcast`: either a `U.Module` carrying
its `parameters_to_binary()` blob, or a value of some other type, which
fails `U.assert_type(net, U.Module)`. -/
inductive Net where
  | torchModule (params_binary : List ℕ)
  | nonModule

/-- The serialize-to-binary capability required of broadcast arguments; only
`torchModule` really has it (the `nonModule` value is rejected before it is
ever consulted). -/
def Net.parameters_to_binary : Net → List ℕ
  | Net.torchModule b => b
  | Net.nonModule => []

/-- `TorchBroadcaster` construction state (torch_broadcaster.py lines 6-11):
the channel name and the debug flag. -/
structure TorchBroadcaster where
  name : String
  debug : Bool

/-- Modelled from the spec: `surreal.utils.binary_hash` (surreal/utils is
not under src/) is a deterministic content hash of the blob, used only for
the debug log line. -/
def binary_hash (b : List ℕ) : ℕ :=
  b.foldl (fun acc x => 31 * acc + x + 1) 7

/-- A payload published on the parameter channel. -/
structure Published where
  channel : String
  binary : List ℕ
  message : String

/-- Modelled from the spec: the base class `Broadcaster.broadcast`
(broadcaster.py is not under src/) publishes the pair `(binary, message)`
under the broadcaster's channel name. -/
def basePublish (tb : TorchBroadcaster) (binary : List ℕ) (message : String) :
    Published :=
  { channel := tb.name, binary := binary, message := message }

/-- The message of the fatal `U.assert_type` failure in
`TorchBroadcaster.broadcast`. -/
def assertTypeErrMsg : String := "assert_type: net is not a surreal.utils.Module"

/-- `TorchBroadcaster.broadcast` (torch_broadcaster.py lines 13-18):
asserts the `U.Module` capability, serializes the parameters, optionally
prints a debug line with the content hash, and publishes through the base
class.  The result carries the published payload together with the debug
log output. -/
def TorchBroadcaster.broadcast (tb : TorchBroadcaster) (net : Net)
    (message : String) : Except String (Published × List (String × ℕ)) :=
  match net with
  | Net.torchModule bin =>
      Except.ok (basePublish tb bin message,
        if tb.debug then [(message, binary_hash bin)] else [])
  | Net.nonModule => Except.error assertTypeErrMsg

/-- Observable events of the rollout/eval loop in run_cartpole_eval.py. -/
inductive Ev where
  | pull
  | reset
  | act
  | step (episodeDone : Bool)
deriving DecidableEq

/-- Event trace of the body of the `while True:` loop in
run_cartpole_eval.py (lines 31-38), driven by the sequence of `done` flags
the environment returns: each iteration acts, steps, and on `done=True`
pulls parameters and resets before the next iteration. -/
def evalSteps : List Bool → List Ev
  | [] => []
  | d :: rest =>
      Ev.act :: Ev.step d ::
        (if d then Ev.pull :: Ev.reset :: evalSteps rest else evalSteps rest)

/-- Event trace of the whole eval script: `q_agent.pull_parameters()`, then
`env.reset()`, then the loop. -/
def evalRun (dones : List Bool) : List Ev :=
  Ev.pull :: Ev.reset :: evalSteps dones

/-- Every `reset` event in the trace is immediately preceded by a `pull`
event. -/
def pullPrecedesReset : List Ev → Prop
  | a :: b :: rest => (b = Ev.reset → a = Ev.pull) ∧ pullPrecedesReset (b :: rest)
  | _ => True

/-- Every `step` event that returns `done=True` is immediately followed by a
`pull` and then a `reset` event. -/
def pullAfterDone : List Ev → Prop
  | [] => True
  | e :: rest =>
      (e = Ev.step true → ∃ tail, rest = Ev.pull :: Ev.reset :: tail)
        ∧ pullAfterDone rest

/-- A z-filter state with no accumulated statistics. -/
def zfZero : ZFilterState := ⟨0, [], []⟩

/-- The recurrent-policy configuration switched off. -/
def rnnOff : RnnConfig := ⟨false, 0, 0⟩

/-- A concrete model used by witnesses. -/
def modelA : PPOModel := ⟨1, 1, false, 0, rnnOff, [1], [2], zfZero⟩

/-- A second concrete model used by witnesses. -/
def modelB : PPOModel := ⟨1, 1, false, 0, rnnOff, [3], [4], zfZero⟩

end

lemma clampMin_eq_max (c x : ℝ) : DiagGauss.clampMin c x = max x c := by
  unfold DiagGauss.clampMin
  rcases lt_or_le x c with h | h
  · rw [if_pos h, max_eq_right h.le]
  · rw [if_neg (not_lt.2 h), max_eq_left h]

/-- C4: for every action batch `a` and probability record `prob`,
`likelihood(a, prob)` equals `max(exp(log_likelihood(a, prob)), 1e-5)`, the
exponentiated log-likelihood floored elementwise at `1e-5`. -/
theorem likelihood_exp_floor (d : ℕ) (a prob : List (List ℝ)) :
    DiagGauss.likelihood d a prob
      = (DiagGauss.loglikelihood d a prob).map
          fun x => max (Real.exp x) (1e-5 : ℝ) := by
  unfold DiagGauss.likelihood
  simp only [clampMin_eq_max]

lemma maxprob_cons (d : ℕ) (r : List ℝ) (p : List (List ℝ)) :
    DiagGauss.maxprob d (r :: p) = r.take d :: DiagGauss.maxprob d p := rfl

/-- C3: on a 2-D probability record built from per-row means of length `d`
concatenated with per-row stds, `maxprob` returns exactly the means
(`prob[:, :d]`), deterministically. -/
theorem maxprob_returns_mean (d : ℕ) (means stds : List (List ℝ))
    (hlen : means.length = stds.length)
    (hd : ∀ r ∈ means, r.length = d) :
    DiagGauss.maxprob d (List.zipWith (fun x y => x ++ y) means stds) = means := by
  induction means generalizing stds with
  | nil => simp [DiagGauss.maxprob]
  | cons m mt ih =>
      cases stds with
      | nil => simp at hlen
      | cons s st =>
          rw [List.zipWith_cons_cons, maxprob_cons]
          have h1 : (m ++ s).take d = m := by
            rw [← hd m (by simp)]
            exact List.take_left m s
          rw [h1, ih st (by simpa using hlen) (fun r hr => hd r (by simp [hr]))]

/-- Witness for C3 at `d = 1`, `means = [[5]]`, `stds = [[2]]`. -/
theorem maxprob_returns_mean_witness :
    ([[(5 : ℝ)]] : List (List ℝ)).length = ([[(2 : ℝ)]] : List (List ℝ)).length
      ∧ (∀ r ∈ ([[(5 : ℝ)]] : List (List ℝ)), r.length = 1)
      ∧ DiagGauss.maxprob 1
          (List.zipWith (fun x y => x ++ y) [[(5 : ℝ)]] [[(2 : ℝ)]]) = [[(5 : ℝ)]] :=
  ⟨rfl, by simp, maxprob_returns_mean 1 [[(5 : ℝ)]] [[(2 : ℝ)]] rfl (by simp)⟩

/-- C1: the code's `entropy` does not compute the closed-form differential
entropy the spec states.  At `d = 1` and probability record `[[0, e]]`
(mean 0, std e) the code yields `0.5*1 + 0.5*log(2*pi*e)` while the spec's
formula (`entropySpec`, sum of log std plus `d * 0.5*log(2*pi*e)`) yields
`1 + 0.5*log(2*pi*e)`: the code halves the log-std term. -/
theorem entropy_formula_deviates :
    DiagGauss.entropy 1 [[0, Real.exp 1]]
      ≠ DiagGauss.entropySpec 1 [[0, Real.exp 1]] := by
  simp only [DiagGauss.entropy, DiagGauss.entropyRow, DiagGauss.entropySpec,
    List.map_cons, List.map_nil, List.drop_succ_cons, List.drop_zero,
    List.sum_cons, List.sum_nil, Real.log_exp, ne_eq, List.cons.injEq, and_true]
  intro h
  nlinarith [h]

/-- C2: the 3-D path of `maxprob` is not numerically equal, after flattening
the time axis into the batch axis, to the 2-D path on the reshaped record.
At `d = 1` and the (batch=1, time=1) record `[[[2, 3]]]` (mean 2, std 3) the
code's 3-D path (`prob[:, :, d]`) yields the std entry `3`, while the 2-D
path on the reshaped record `[[2, 3]]` yields the mean `2`. -/
theorem maxprob3_deviates :
    (DiagGauss.maxprob3 1 [[[(2 : ℝ), 3]]]).flatten
      ≠ (DiagGauss.maxprob 1 [[(2 : ℝ), 3]]).flatten := by
  simp [DiagGauss.maxprob3, DiagGauss.maxprob, List.getD]

lemma sum_zipWith_log_self :
    ∀ (s : List ℝ), (∀ x ∈ s, x ≠ 0) →
      (List.zipWith (fun s0 s1 => Real.log (s1 / s0)) s s).sum = 0
  | [], _ => rfl
  | a :: t, h => by
      simp only [List.zipWith_cons_cons, List.sum_cons]
      rw [div_self (h a (by simp)), Real.log_one,
        sum_zipWith_log_self t (fun x hx => h x (by simp [hx]))]
      ring

lemma sum_zipWith_half_self :
    ∀ (m s : List ℝ), m.length = s.length → (∀ x ∈ s, x ≠ 0) →
      (List.zipWith (fun q s1 => q / (2 * s1 ^ 2))
        (List.zipWith (fun s0 md => s0 ^ 2 + md ^ 2) s
          (List.zipWith (fun m0 m1 => m0 - m1) m m)) s).sum
        = s.length * (1 / 2 : ℝ)
  | [], [], _, _ => by simp
  | [], _ :: _, h, _ => by simp at h
  | _ :: _, [], h, _ => by simp at h
  | a :: mt, b :: st, h, hx => by
      simp only [List.zipWith_cons_cons, List.sum_cons, List.length_cons]
      have hb : b ≠ 0 := hx b (by simp)
      have hhead : (b ^ 2 + (a - a) ^ 2) / (2 * b ^ 2) = 1 / 2 := by
        rw [sub_self]
        field_simp
        ring
      rw [hhead,
        sum_zipWith_half_self mt st (by simpa using h)
          (fun x hxx => hx x (by simp [hxx]))]
      push_cast
      ring

lemma klRow_self_eq_zero (d : ℕ) (r : List ℝ) (hlen : r.length = 2 * d)
    (hpos : ∀ s ∈ r.drop d, 0 < s) : DiagGauss.klRow d r r = 0 := by
  have hs : (r.drop d).length = d := by
    rw [List.length_drop, hlen]; omega
  have hm : (r.take d).length = d := by
    rw [List.length_take, hlen]; omega
  unfold DiagGauss.klRow
  rw [sum_zipWith_log_self _ (fun x hx => (hpos x hx).ne'),
    sum_zipWith_half_self (r.take d) (r.drop d) (by rw [hm, hs])
      (fun x hx => (hpos x hx).ne'),
    hs]
  ring

/-- C5: for every probability record with rows of length `2*d` and positive
stds, `kl(p, p)` is the all-zero vector: the closed-form KL of a
distribution against itself vanishes exactly. -/
theorem kl_self_zero (d : ℕ) (p : List (List ℝ))
    (hlen : ∀ r ∈ p, r.length = 2 * d)
    (hpos : ∀ r ∈ p, ∀ s ∈ r.drop d, 0 < s) :
    DiagGauss.kl d p p = List.replicate p.length 0 := by
  induction p with
  | nil => rfl
  | cons r t ih =>
      have hr := klRow_self_eq_zero d r (hlen r (by simp)) (hpos r (by simp))
      have ht := ih (fun x hx => hlen x (by simp [hx]))
        (fun x hx => hpos x (by simp [hx]))
      rw [show DiagGauss.kl d (r :: t) (r :: t)
            = DiagGauss.klRow d r r :: DiagGauss.kl d t t from rfl,
        hr, List.length_cons, List.replicate_succ, ht]

/-- Witness for C5 at `d = 1`, `p = [[0, 1]]` (mean 0, std 1). -/
theorem kl_self_zero_witness :
    (∀ r ∈ ([[(0 : ℝ), 1]] : List (List ℝ)), r.length = 2 * 1)
      ∧ (∀ r ∈ ([[(0 : ℝ), 1]] : List (List ℝ)), ∀ s ∈ r.drop 1, 0 < s)
      ∧ DiagGauss.kl 1 [[(0 : ℝ), 1]] [[(0 : ℝ), 1]] = List.replicate 1 0 :=
  ⟨by simp, by norm_num,
    kl_self_zero 1 [[(0 : ℝ), 1]] (by simp) (by norm_num)⟩

/-- C6: `z_update` raises exactly when the model was constructed with
`use_z_filter = false`; when the filter is enabled the call succeeds and
folds the batch into the running statistics, and when it is disabled the
model state after the call is unchanged. -/
theorem z_update_error_iff_no_filter (m : PPOModel) (obs : List (List ℝ)) :
    ((z_update m obs).1 = Except.error zUpdateErrMsg ↔ m.use_z_filter = false)
      ∧ ((z_update m obs).1 = Except.ok () ↔ m.use_z_filter = true)
      ∧ (z_update m obs).2
          = (if m.use_z_filter then
              { m with z_filter := zFilterUpdate m.z_filter obs } else m) := by
  cases h : m.use_z_filter <;> simp [z_update, h]

/-- C7: after `update_target_params`, a model produces the same actor and
critic outputs as the source model on every input, for every evaluation of
the (external) actor and critic networks, provided both models were built
with the same filter configuration. -/
theorem sync_parameters_roundtrip
    (evalA evalC : List ℝ → List (List ℝ) → List (List ℝ))
    (a b : PPOModel) (obs : List (List ℝ))
    (hcfg : a.use_z_filter = b.use_z_filter) :
    forward_actor evalA (update_target_params a b) obs
        = forward_actor evalA b obs
      ∧ forward_critic evalC (update_target_params a b) obs
        = forward_critic evalC b obs := by
  cases h : a.use_z_filter <;>
    simp [forward_actor, forward_critic, update_target_params, h, ← hcfg]

/-- Witness for C7 with `modelA`, `modelB` and concrete network
evaluations. -/
theorem sync_parameters_roundtrip_witness :
    modelA.use_z_filter = modelB.use_z_filter
      ∧ (forward_actor (fun p _ => [p]) (update_target_params modelA modelB) [[3]]
          = forward_actor (fun p _ => [p]) modelB [[3]]
        ∧ forward_critic (fun p _ => [p]) (update_target_params modelA modelB) [[3]]
          = forward_critic (fun p _ => [p]) modelB [[3]]) :=
  ⟨rfl, sync_parameters_roundtrip (fun p _ => [p]) (fun p _ => [p])
    modelA modelB [[3]] rfl⟩

/-- C10: on a model constructed with `use_z_filter = false`,
`update_target_z_filter` is a silent no-op — it returns normally and leaves
the model unchanged — whereas `z_update` raises in that same
configuration. -/
theorem update_target_z_filter_silent_noop (m net : PPOModel)
    (obs : List (List ℝ)) (h : m.use_z_filter = false) :
    update_target_z_filter m net = m
      ∧ (z_update m obs).1 = Except.error zUpdateErrMsg := by
  constructor
  · simp [update_target_z_filter, h]
  · simp [z_update, h]

/-- Witness for C10 with `modelA` (built with `use_z_filter = false`). -/
theorem update_target_z_filter_silent_noop_witness :
    modelA.use_z_filter = false
      ∧ (update_target_z_filter modelA modelB = modelA
        ∧ (z_update modelA [[1]]).1 = Except.error zUpdateErrMsg) :=
  ⟨rfl, update_target_z_filter_silent_noop modelA modelB [[1]] rfl⟩

/-- C9: `broadcast` publishes exactly `(net.parameters_to_binary(), message)`
under the broadcaster's channel name for every serializable module; the
published payload is identical whether or not the debug flag is set; and a
net lacking the `U.Module` capability is rejected with a fatal error, so
nothing is published for it. -/
theorem torch_broadcast_contract (n msg : String) (d : Bool) (bin : List ℕ)
    (net : Net) :
    (TorchBroadcaster.broadcast ⟨n, d⟩ (Net.torchModule bin) msg).map Prod.fst
        = Except.ok (basePublish ⟨n, d⟩ (Net.torchModule bin).parameters_to_binary msg)
      ∧ (TorchBroadcaster.broadcast ⟨n, true⟩ net msg).map Prod.fst
        = (TorchBroadcaster.broadcast ⟨n, false⟩ net msg).map Prod.fst
      ∧ TorchBroadcaster.broadcast ⟨n, d⟩ Net.nonModule msg
        = Except.error assertTypeErrMsg := by
  refine ⟨?_, ?_, rfl⟩
  · simp [TorchBroadcaster.broadcast, Net.parameters_to_binary, Except.map]
  · cases net <;> simp [TorchBroadcaster.broadcast, Except.map, basePublish]

lemma pullAfterDone_evalSteps : ∀ dones, pullAfterDone (evalSteps dones) := by
  intro dones
  induction dones with
  | nil => simp [evalSteps, pullAfterDone]
  | cons d rest ih =>
      cases d <;> simp [evalSteps, pullAfterDone, ih]

lemma pullPrecedesReset_cons_evalSteps :
    ∀ (dones : List Bool) (e : Ev), pullPrecedesReset (e :: evalSteps dones) := by
  intro dones
  induction dones with
  | nil => intro e; simp [evalSteps, pullPrecedesReset]
  | cons d rest ih =>
      intro e
      cases d
      · show pullPrecedesReset
          (e :: Ev.act :: Ev.step false :: evalSteps rest)
        exact ⟨by simp, by simp, ih (Ev.step false)⟩
      · show pullPrecedesReset
          (e :: Ev.act :: Ev.step true :: Ev.pull :: Ev.reset :: evalSteps rest)
        exact ⟨by simp, by simp, by simp, fun _ => rfl, ih Ev.reset⟩

/-- C8: in the rollout/eval loop trace, parameters are pulled first of all
(hence before the first environment step); every `done=True` step is
immediately followed by a parameter pull and then the environment reset;
and every reset — the start of any new episode — is immediately preceded by
a parameter pull. -/
theorem eval_loop_parameter_refresh (dones : List Bool) :
    (evalRun dones).head? = some Ev.pull
      ∧ pullPrecedesReset (evalRun dones)
      ∧ pullAfterDone (evalRun dones) := by
  refine ⟨rfl, ?_, ?_⟩
  · exact ⟨fun _ => rfl, pullPrecedesReset_cons_evalSteps dones Ev.reset⟩
  · exact ⟨by simp, by simp, pullAfterDone_evalSteps dones⟩

end SurrealRL
